import Mathlib

/-!
Shallow embedding of `src/network/mtr.py` (class `MTRTracer`).

Modelling conventions:
* Python strings are Lean `String`; only ASCII text is modelled
  (`str.isdigit`, `str.strip`, `str.lower`, `str.split` agree with the
  Lean counterparts on ASCII input).
* Python floats are modelled as `ℚ`; the latency arithmetic appearing in
  the claims involves only exactly representable values.
* The outside world (the subprocess, the scapy primitives, the platform
  string, the process-global scapy `conf` object) is passed in
  explicitly as environment records; a strategy that lets a Python
  exception escape is modelled with `Except String`.
-/

/-- One hop entry, the dictionary `{"hop": .., "ip": .., "latency": ..}`
appended by both strategies. -/
structure Hop where
  hop : Nat
  ip : String
  latency : ℚ
  deriving DecidableEq, Repr

/-- The configuration stored by `MTRTracer.__init__`: target host string,
maximum hop count, and the method string (`"tracert"` or `"scapy"`). -/
structure MTRTracer where
  target_host : String
  max_hops : Nat := 30
  method : String := "tracert"
  deriving DecidableEq, Repr

/-- Splitting a character list at newline characters. -/
def splitAtNewline : List Char → List (List Char)
  | [] => [[]]
  | c :: cs =>
    if c = '\n' then [] :: splitAtNewline cs
    else
      match splitAtNewline cs with
      | [] => [[c]]
      | l :: ls => (c :: l) :: ls

/-- `str.splitlines` (ASCII model: split at the newline character; Python
returns `[]` for the empty string; a trailing newline yields one extra
empty line here, which the parsing loop skips as blank anyway). -/
def splitlines (s : String) : List String :=
  if s.data.isEmpty then [] else (splitAtNewline s.data).map String.mk

/-- Worker for `pySplit`: accumulate the current word (reversed) while
scanning. -/
def pySplitGo : List Char → List Char → List (List Char)
  | [], acc => if acc.isEmpty then [] else [acc.reverse]
  | c :: cs, acc =>
    if c.isWhitespace then
      if acc.isEmpty then pySplitGo cs []
      else acc.reverse :: pySplitGo cs []
    else pySplitGo cs (c :: acc)

/-- Python `line.split()` with no separator: split on whitespace runs,
dropping empty pieces. -/
def pySplit (line : String) : List String :=
  (pySplitGo line.data []).map String.mk

/-- Python `str.strip()`: drop whitespace from both ends. -/
def pyStrip (s : String) : String :=
  String.mk (((s.data.dropWhile Char.isWhitespace).reverse.dropWhile
    Char.isWhitespace).reverse)

/-- `List.IsPrefix` test by structural recursion (text, pattern). -/
def startsWithChars : List Char → List Char → Bool
  | _, [] => true
  | [], _ :: _ => false
  | c :: cs, p :: ps => c == p && startsWithChars cs ps

/-- Python `str.startswith`. -/
def pyStartswith (s pre : String) : Bool :=
  startsWithChars s.data pre.data

/-- ASCII lowercasing of one character (Python `str.lower` on ASCII). -/
def pyLowerChar (c : Char) : Char :=
  if 'A' ≤ c && c ≤ 'Z' then Char.ofNat (c.toNat + 32) else c

/-- Python `str.lower` on ASCII text. -/
def pyLower (s : String) : String :=
  String.mk (s.data.map pyLowerChar)

/-- Python `str.isdigit` on ASCII text: nonempty and all characters are
decimal digits. -/
def pyIsdigit (s : String) : Bool :=
  !s.data.isEmpty && s.data.all Char.isDigit

/-- Python `int` on a digit string. -/
def digitsToNat (cs : List Char) : Nat :=
  cs.foldl (fun n c => n * 10 + (c.toNat - 48)) 0

/-- Maximal leading run of decimal digits (the greedy `\d+` step of the
regular expressions): returns the run and the remainder. -/
def digitRun : List Char → List Char × List Char
  | [] => ([], [])
  | c :: cs =>
    if c.isDigit then
      ((c :: (digitRun cs).1), (digitRun cs).2)
    else ([], c :: cs)

/-- Maximal leading run of whitespace (the greedy `\s*` step): returns
the remainder. -/
def wsRun : List Char → List Char
  | [] => []
  | c :: cs => if c.isWhitespace then wsRun cs else c :: cs

/-- One `.` followed by a nonempty digit run (a `\.\d+` step of the
`ip_re` pattern): returns the digit run and the remainder. -/
def dotDigits (cs : List Char) : Option (List Char × List Char) :=
  match cs with
  | c :: rest =>
    if c = '.' then
      if (digitRun rest).1.isEmpty then none
      else some ((digitRun rest).1, (digitRun rest).2)
    else none
  | [] => none

/-- Anchored match of `ip_re = (\d+\.\d+\.\d+\.\d+)` at the head of the
character list.  Backtracking never helps this pattern (giving characters
back from a greedy `\d+` can only expose another digit where a literal
`.` is required), so maximal digit runs give exactly the `re` semantics.
Returns the matched substring and the remainder. -/
def matchQuadAt (cs : List Char) : Option (List Char × List Char) :=
  if (digitRun cs).1.isEmpty then none
  else
    match dotDigits (digitRun cs).2 with
    | none => none
    | some (d2, r2) =>
      match dotDigits r2 with
      | none => none
      | some (d3, r3) =>
        match dotDigits r3 with
        | none => none
        | some (d4, r4) =>
          some ((digitRun cs).1 ++ ('.' :: (d2 ++ ('.' :: (d3 ++ ('.' :: d4))))), r4)

/-- `ip_re.search`: leftmost match of the dotted-quad pattern, as the
matched substring (`.group(1)` is the whole match). -/
def findQuad : List Char → Option String
  | [] => none
  | c :: cs =>
    match matchQuadAt (c :: cs) with
    | some (m, _) => some (String.mk m)
    | none => findQuad cs

/-- Whether a whole string (as characters) has the dotted-quad shape
matched by `ip_re`, i.e. the anchored match consumes everything. -/
def quadShapeB (cs : List Char) : Bool :=
  match matchQuadAt cs with
  | some (_, r) => r.isEmpty
  | none => false

/-- Anchored match of `rtt_re = <?(\d+)\s*ms` at the head, without the
optional `<` (which `matchRttAt` handles): greedy digit run, greedy
whitespace run, then the literal `ms`.  Returns the captured digit group
and the remainder after the match. -/
def matchRttCoreAt (cs : List Char) : Option (List Char × List Char) :=
  if (digitRun cs).1.isEmpty then none
  else
    match wsRun (digitRun cs).2 with
    | 'm' :: 's' :: rest => some ((digitRun cs).1, rest)
    | _ => none

/-- Anchored match of `rtt_re = <?(\d+)\s*ms` at the head: the optional
`<` is consumed when present (if digits do not follow it, the branch
without `<` also fails, since `\d+` cannot match `<`). -/
def matchRttAt (cs : List Char) : Option (List Char × List Char) :=
  match cs with
  | '<' :: rest => matchRttCoreAt rest
  | _ => matchRttCoreAt cs

/-- `rtt_re.findall`: scan left to right, collecting non-overlapping
matches and resuming after each match.  Fuel-indexed structural
recursion; every successful match consumes at least three characters, so
`fuel = cs.length` (see `rttFindall`) never runs out before the scan
finishes. -/
def rttFindallGo : Nat → List Char → List Nat
  | 0, _ => []
  | _ + 1, [] => []
  | fuel + 1, c :: cs =>
    match matchRttAt (c :: cs) with
    | some (d, rest) => digitsToNat d :: rttFindallGo fuel rest
    | none => rttFindallGo fuel cs

/-- `[int(m) for m in rtt_re.findall(line)]`. -/
def rttFindall (cs : List Char) : List Nat :=
  rttFindallGo cs.length cs

/-- The `rtts` list computed for one stripped line. -/
def lineRtts (line : String) : List Nat :=
  rttFindall line.data

/-- The `ip_addr` computed for one stripped line:
`ip_match.group(1) if ip_match else "*"`. -/
def lineIp (line : String) : String :=
  match findQuad line.data with
  | some s => s
  | none => "*"

/-- The `latency` computed for one stripped line:
`sum(rtts)/len(rtts) if rtts else -1`. -/
def lineLatency (line : String) : ℚ :=
  if (lineRtts line).isEmpty then -1
  else ((lineRtts line).sum : ℚ) / (lineRtts line).length

/-- One pass of the `for line in out` loop of `_tracert_trace`: `none`
when the line is skipped (`continue` branches), otherwise the hop
dictionary that gets appended. -/
def dataHop (rawLine : String) : Option Hop :=
  if pyStrip rawLine = "" then none
  else if pyStartswith (pyStrip rawLine) "Tracing route" then none
  else if pyStartswith (pyLower (pyStrip rawLine)) "over a maximum" then none
  else
    match pySplit (pyStrip rawLine) with
    | [] => none
    | p :: _ =>
      if pyIsdigit p then
        some ⟨digitsToNat p.data, lineIp (pyStrip rawLine), lineLatency (pyStrip rawLine)⟩
      else none

/-- The whole `for line in out` loop of `_tracert_trace`, including the
`break` once a parsed address equals `self.target_host`. -/
def tracertParse (target : String) : List String → List Hop
  | [] => []
  | l :: ls =>
    match dataHop l with
    | none => tracertParse target ls
    | some h => h :: (if h.ip = target then [] else tracertParse target ls)

/-- Whether one raw line is a data line whose parsed address equals the
target (the condition of the `break`). -/
def hitsTarget (target rawLine : String) : Bool :=
  match dataHop rawLine with
  | some h => h.ip == target
  | none => false

/-- Behaviour of `subprocess.run(["tracert", "-d", "-w", "200", host],
capture_output=True, text=True, timeout=60)` for one invocation:
whether the process can be spawned at all (`False` models
`FileNotFoundError` and friends), its intrinsic running time, its
standard output and its exit status.  `subprocess.run` without
`check=True` does not raise on a non-zero exit status. -/
structure SubprocessEnv where
  spawnOk : Bool
  runTime : ℚ
  stdout : String
  exitcode : Int

/-- Wall-clock time the strategy spends waiting on the subprocess: the
`timeout=60` argument kills the wait after 60 time units. -/
def subprocessElapsed (env : SubprocessEnv) : ℚ :=
  if env.spawnOk then min env.runTime 60 else 0

/-- `MTRTracer._tracert_trace`: the `try` block catches every exception
from `subprocess.run` (spawn failure, `TimeoutExpired` when the run time
exceeds the `timeout=60` ceiling) and returns the empty `hops` list;
otherwise the standard output is parsed line by line. -/
def MTRTracer.tracert_trace (cfg : MTRTracer) (env : SubprocessEnv) : List Hop :=
  if !env.spawnOk then []
  else if 60 < env.runTime then []
  else tracertParse cfg.target_host (splitlines env.stdout)

/-- An IPv4 source address as scapy stores it in the `IP` layer: four
numeric octet fields, rendered as a dotted quad by `str`. -/
structure IPv4Quad where
  a : Nat
  b : Nat
  c : Nat
  d : Nat
  deriving DecidableEq, Repr

/-- The dotted-quad string form of an `IP` layer source field. -/
def ipv4Str (q : IPv4Quad) : String :=
  toString q.a ++ "." ++ toString q.b ++ "." ++ toString q.c ++ "." ++ toString q.d

/-- Hex digit table for MAC rendering. -/
def hexChar (n : Nat) : Char :=
  "0123456789abcdef".data.getD n '0'

/-- Two lowercase hex digits of one octet. -/
def hex2 (n : Nat) : String :=
  String.mk [hexChar (n / 16 % 16), hexChar (n % 16)]

/-- An Ethernet source address as scapy stores it: six octets, rendered
as colon-separated hex pairs by `str`. -/
structure MacAddr where
  m1 : Nat
  m2 : Nat
  m3 : Nat
  m4 : Nat
  m5 : Nat
  m6 : Nat
  deriving DecidableEq, Repr

/-- The string form of an Ethernet source field. -/
def macStr (m : MacAddr) : String :=
  hex2 m.m1 ++ ":" ++ hex2 m.m2 ++ ":" ++ hex2 m.m3 ++ ":" ++
    hex2 m.m4 ++ ":" ++ hex2 m.m5 ++ ":" ++ hex2 m.m6

/-- One answered probe as seen by `_scapy_trace`: whether the reply has
an `IP` layer, the `IP` source field and the Ether source field. -/
structure ScapyReply where
  hasIP : Bool
  ipSrc : IPv4Quad
  etherSrc : MacAddr
  deriving DecidableEq, Repr

/-- `reply[IP].src if reply.haslayer(IP) else reply.src`. -/
def renderSrc (r : ScapyReply) : String :=
  if r.hasIP then ipv4Str r.ipSrc else macStr r.etherSrc

/-- Behaviour of the scapy primitives for one `_scapy_trace` run: the
`get_if_list()` result, whether packet construction or `srp` raises at a
given TTL, the first answer (if any) that `srp` returns at a given TTL,
and the elapsed seconds measured for that probe. -/
structure ScapyEnv where
  interfaces : List String
  srpRaises : Nat → Bool
  reply : Nat → Option ScapyReply
  elapsed : Nat → ℚ

/-- The process-global scapy `conf` object (its `iface` field is the
only part this code touches). -/
structure ScapyConf where
  iface : String
  deriving DecidableEq, Repr

/-- The `for ttl in range(1, self.max_hops + 1)` loop of `_scapy_trace`,
as a recursion on the number of remaining iterations.  There is no
`try`/`except` in `_scapy_trace`: an exception at some TTL propagates
and the hops accumulated so far are lost, which the `Except.map` shape
reproduces. -/
def scapyGo (cfg : MTRTracer) (env : ScapyEnv) : Nat → Nat → Except String (List Hop)
  | _, 0 => .ok []
  | ttl, n + 1 =>
    if env.srpRaises ttl then .error "scapy exception"
    else
      match env.reply ttl with
      | none =>
        (scapyGo cfg env (ttl + 1) n).map fun hs => ⟨ttl, "*", -1⟩ :: hs
      | some r =>
        if renderSrc r = cfg.target_host then
          .ok [⟨ttl, renderSrc r, env.elapsed ttl * 1000⟩]
        else
          (scapyGo cfg env (ttl + 1) n).map
            fun hs => ⟨ttl, renderSrc r, env.elapsed ttl * 1000⟩ :: hs

/-- `MTRTracer._scapy_trace`: `conf.iface` is assigned the first entry
of `get_if_list()` when that list is nonempty (and is left untouched when
it is empty — the code then proceeds to probe anyway), after which the
TTL loop runs.  Returns the outcome together with the global `conf`
state after the call. -/
def MTRTracer.scapy_trace (cfg : MTRTracer) (env : ScapyEnv) (conf : ScapyConf) :
    Except String (List Hop) × ScapyConf :=
  let confAfter :=
    match env.interfaces with
    | [] => conf
    | i :: _ => ⟨i⟩
  (scapyGo cfg env 1 cfg.max_hops, confAfter)

/-- `MTRTracer.trace`: the tracert-then-scapy fallback runs only when
`self.method == "tracert"` and `sys.platform.startswith("win")`; a
method of `"scapy"` goes straight to `_scapy_trace`; everything else
returns the `_tracert_trace` result directly. -/
def MTRTracer.trace (cfg : MTRTracer) (envT : SubprocessEnv) (envS : ScapyEnv)
    (platform : String) (conf : ScapyConf) : Except String (List Hop) × ScapyConf :=
  if cfg.method = "tracert" ∧ pyStartswith platform "win" = true then
    if cfg.tracert_trace envT = [] then cfg.scapy_trace envS conf
    else (.ok (cfg.tracert_trace envT), conf)
  else if cfg.method = "scapy" then cfg.scapy_trace envS conf
  else (.ok (cfg.tracert_trace envT), conf)

/-- Adjacent-pairs strict-increase test for a list of naturals. -/
def strictlyIncr : List Nat → Bool
  | a :: b :: t => if a < b then strictlyIncr (b :: t) else false
  | _ => true

/-- A TraceResult has strictly increasing hop indices starting at 1 (the
property claimed in the specification). -/
abbrev hopIndicesOk (l : List Hop) : Prop :=
  strictlyIncr (l.map Hop.hop) = true ∧ ((l.map Hop.hop).head?.getD 1 = 1)

/-- Splitting a character list at dots (for `isIPv4Quad`). -/
def splitAtDot : List Char → List (List Char)
  | [] => [[]]
  | c :: cs =>
    if c = '.' then [] :: splitAtDot cs
    else
      match splitAtDot cs with
      | [] => [[c]]
      | l :: ls => (c :: l) :: ls

/-- A valid IPv4 dotted quad in the sense of the specification data
model: four dot-separated nonempty decimal components, each at most
255.  (Used only to state claims about what counts as a dotted quad;
the code itself never validates octet ranges.) -/
def isIPv4Quad (s : String) : Bool :=
  match splitAtDot s.data with
  | [a, b, c, d] =>
    [a, b, c, d].all fun p => !p.isEmpty && p.all Char.isDigit && digitsToNat p ≤ 255
  | _ => false

/-! ## Lemmas about the digit-run scanner -/

theorem digitRun_eq_append : ∀ cs : List Char, (digitRun cs).1 ++ (digitRun cs).2 = cs := by
  intro cs
  induction cs with
  | nil => rfl
  | cons c cs ih =>
    simp only [digitRun]
    split
    · simpa using ih
    · rfl

theorem digitRun_digits : ∀ cs : List Char, ∀ c ∈ (digitRun cs).1, c.isDigit = true := by
  intro cs
  induction cs with
  | nil => intro c hc; cases hc
  | cons x cs ih =>
    simp only [digitRun]
    split
    · intro c hc
      rcases List.mem_cons.mp hc with h | h
      · subst h; assumption
      · exact ih c h
    · intro c hc; cases hc

theorem digitRun_append_stop (d t : List Char) (x : Char)
    (hd : ∀ c ∈ d, c.isDigit = true) (hx : x.isDigit = false) :
    digitRun (d ++ x :: t) = (d, x :: t) := by
  induction d with
  | nil => simp [digitRun, hx]
  | cons c d ih =>
    have hc : c.isDigit = true := hd c (List.mem_cons_self c d)
    have ih := ih fun a ha => hd a (List.mem_cons_of_mem c ha)
    simp [digitRun, hc, ih]

theorem digitRun_all (d : List Char) (hd : ∀ c ∈ d, c.isDigit = true) :
    digitRun d = (d, []) := by
  induction d with
  | nil => rfl
  | cons c d ih =>
    have hc : c.isDigit = true := hd c (List.mem_cons_self c d)
    have ih := ih fun a ha => hd a (List.mem_cons_of_mem c ha)
    simp [digitRun, hc, ih]

/-! ## Lemmas about the dotted-quad matcher -/

theorem dotDigits_structure {cs d r : List Char} (h : dotDigits cs = some (d, r)) :
    d ≠ [] ∧ (∀ c ∈ d, c.isDigit = true) ∧ cs = '.' :: (d ++ r) := by
  cases cs with
  | nil => cases h
  | cons c rest =>
    simp only [dotDigits] at h
    split at h
    · split at h
      · cases h
      · rename_i hc hne
        injection h with h
        injection h with h1 h2
        subst hc; subst h1; subst h2
        refine ⟨?_, digitRun_digits rest, ?_⟩
        · intro habs
          rw [habs] at hne
          simp at hne
        · rw [digitRun_eq_append rest]
    · cases h

theorem dotDigits_of_run (d t : List Char) (hne : d ≠ [])
    (hd : ∀ c ∈ d, c.isDigit = true) (hstop : digitRun (d ++ t) = (d, t)) :
    dotDigits ('.' :: (d ++ t)) = some (d, t) := by
  have hde : d.isEmpty = false := by
    cases d with
    | nil => exact absurd rfl hne
    | cons a d => rfl
  simp only [dotDigits, hstop, hde]
  simp

theorem matchQuadAt_structure {cs m r : List Char} (h : matchQuadAt cs = some (m, r)) :
    ∃ d1 d2 d3 d4 : List Char,
      d1 ≠ [] ∧ d2 ≠ [] ∧ d3 ≠ [] ∧ d4 ≠ [] ∧
      (∀ c ∈ d1, c.isDigit = true) ∧ (∀ c ∈ d2, c.isDigit = true) ∧
      (∀ c ∈ d3, c.isDigit = true) ∧ (∀ c ∈ d4, c.isDigit = true) ∧
      m = d1 ++ ('.' :: (d2 ++ ('.' :: (d3 ++ ('.' :: d4))))) := by
  unfold matchQuadAt at h
  split at h
  · cases h
  · rename_i hne1
    split at h
    · cases h
    · rename_i p2 d2 r2 h2
      split at h
      · cases h
      · rename_i p3 d3 r3 h3
        split at h
        · cases h
        · rename_i p4 d4 r4 h4
          injection h with h
          injection h with hm hr
          obtain ⟨hne2, hdig2, -⟩ := dotDigits_structure h2
          obtain ⟨hne3, hdig3, -⟩ := dotDigits_structure h3
          obtain ⟨hne4, hdig4, -⟩ := dotDigits_structure h4
          refine ⟨(digitRun cs).1, d2, d3, d4, ?_, hne2, hne3, hne4,
            digitRun_digits cs, hdig2, hdig3, hdig4, hm.symm⟩
          intro habs
          rw [habs] at hne1
          simp at hne1

theorem matchQuadAt_of_shape (d1 d2 d3 d4 : List Char)
    (h1 : d1 ≠ []) (h2 : d2 ≠ []) (h3 : d3 ≠ []) (h4 : d4 ≠ [])
    (g1 : ∀ c ∈ d1, c.isDigit = true) (g2 : ∀ c ∈ d2, c.isDigit = true)
    (g3 : ∀ c ∈ d3, c.isDigit = true) (g4 : ∀ c ∈ d4, c.isDigit = true) :
    matchQuadAt (d1 ++ ('.' :: (d2 ++ ('.' :: (d3 ++ ('.' :: d4)))))) =
      some (d1 ++ ('.' :: (d2 ++ ('.' :: (d3 ++ ('.' :: d4))))), []) := by
  have hdot : ('.' : Char).isDigit = false := rfl
  have e1 : digitRun (d1 ++ ('.' :: (d2 ++ ('.' :: (d3 ++ ('.' :: d4)))))) =
      (d1, '.' :: (d2 ++ ('.' :: (d3 ++ ('.' :: d4))))) :=
    digitRun_append_stop d1 _ '.' g1 hdot
  have e2 : dotDigits ('.' :: (d2 ++ ('.' :: (d3 ++ ('.' :: d4))))) =
      some (d2, '.' :: (d3 ++ ('.' :: d4))) :=
    dotDigits_of_run d2 _ h2 g2 (digitRun_append_stop d2 _ '.' g2 hdot)
  have e3 : dotDigits ('.' :: (d3 ++ ('.' :: d4))) = some (d3, '.' :: d4) :=
    dotDigits_of_run d3 _ h3 g3 (digitRun_append_stop d3 _ '.' g3 hdot)
  have e4 : dotDigits ('.' :: d4) = some (d4, []) := by
    have := dotDigits_of_run d4 [] h4 g4 (by simpa using digitRun_all d4 g4)
    simpa using this
  unfold matchQuadAt
  rw [e1]
  simp only [e2, e3, e4]
  rw [if_neg]
  simp [h1]

theorem quadShapeB_of_matchQuadAt {cs m r : List Char} (h : matchQuadAt cs = some (m, r)) :
    quadShapeB m = true := by
  obtain ⟨d1, d2, d3, d4, h1, h2, h3, h4, g1, g2, g3, g4, hm⟩ := matchQuadAt_structure h
  subst hm
  unfold quadShapeB
  rw [matchQuadAt_of_shape d1 d2 d3 d4 h1 h2 h3 h4 g1 g2 g3 g4]
  rfl

theorem findQuad_shape : ∀ cs : List Char, ∀ s : String,
    findQuad cs = some s → quadShapeB s.data = true := by
  intro cs
  induction cs with
  | nil => intro s h; cases h
  | cons c cs ih =>
    intro s h
    unfold findQuad at h
    split at h
    · rename_i m r hm
      injection h with h
      subst h
      exact quadShapeB_of_matchQuadAt hm
    · exact ih s h

theorem lineIp_shape (line : String) :
    lineIp line = "*" ∨ quadShapeB (lineIp line).data = true := by
  unfold lineIp
  cases hq : findQuad line.data with
  | none => left; rfl
  | some s => right; exact findQuad_shape _ s hq

theorem dataHop_ip {l : String} {h : Hop} (hd : dataHop l = some h) :
    h.ip = "*" ∨ quadShapeB h.ip.data = true := by
  unfold dataHop at hd
  split at hd
  · cases hd
  · split at hd
    · cases hd
    · split at hd
      · cases hd
      · split at hd
        · cases hd
        · split at hd
          · injection hd with hd
            subst hd
            exact lineIp_shape _
          · cases hd

/-! ## The rendered source address of a reply is never the sentinel -/

theorem dot_mem_ipv4Str (q : IPv4Quad) : '.' ∈ (ipv4Str q).data := by
  unfold ipv4Str
  simp [String.data_append]

theorem ipv4Str_ne_sentinel (q : IPv4Quad) : ipv4Str q ≠ "*" := by
  intro h
  have hm := dot_mem_ipv4Str q
  rw [h] at hm
  simp at hm

theorem colon_mem_macStr (m : MacAddr) : ':' ∈ (macStr m).data := by
  unfold macStr
  simp [String.data_append]

theorem macStr_ne_sentinel (m : MacAddr) : macStr m ≠ "*" := by
  intro h
  have hm := colon_mem_macStr m
  rw [h] at hm
  simp at hm

theorem renderSrc_ne_sentinel (r : ScapyReply) : renderSrc r ≠ "*" := by
  unfold renderSrc
  split
  · exact ipv4Str_ne_sentinel _
  · exact macStr_ne_sentinel _

/-! ## Lemmas about the raw-probe loop -/

theorem strictlyIncr_range1 : ∀ (n a : Nat), strictlyIncr (List.range' a n) = true := by
  intro n
  induction n with
  | zero => intro a; rfl
  | succ n ih =>
    intro a
    cases n with
    | zero => rfl
    | succ m =>
      rw [List.range'_succ, List.range'_succ]
      show (if a < a + 1 then strictlyIncr ((a + 1) :: List.range' (a + 1 + 1) m)
        else false) = true
      rw [if_pos (Nat.lt_succ_self a)]
      have h := ih (a + 1)
      rw [List.range'_succ] at h
      exact h

theorem scapyGo_indices (cfg : MTRTracer) (env : ScapyEnv) :
    ∀ (n ttl : Nat) (l : List Hop), scapyGo cfg env ttl n = .ok l →
      l.map Hop.hop = List.range' ttl l.length := by
  intro n
  induction n with
  | zero =>
    intro ttl l h
    injection h with h
    subst h
    rfl
  | succ n ih =>
    intro ttl l h
    unfold scapyGo at h
    split at h
    · cases h
    · split at h
      · cases hgo : scapyGo cfg env (ttl + 1) n with
        | error e => rw [hgo] at h; cases h
        | ok l2 =>
          rw [hgo] at h
          injection h with h
          subst h
          have := ih (ttl + 1) l2 hgo
          simp only [List.map_cons, List.length_cons, this, List.range'_succ]
      · split at h
        · injection h with h
          subst h
          simp [List.range'_succ]
        · cases hgo : scapyGo cfg env (ttl + 1) n with
          | error e => rw [hgo] at h; cases h
          | ok l2 =>
            rw [hgo] at h
            injection h with h
            subst h
            have := ih (ttl + 1) l2 hgo
            simp only [List.map_cons, List.length_cons, this, List.range'_succ]

theorem scapyGo_pairing (cfg : MTRTracer) (env : ScapyEnv) :
    ∀ (n ttl : Nat) (l : List Hop), scapyGo cfg env ttl n = .ok l →
      ∀ h ∈ l, h.ip = "*" → h.latency = -1 := by
  intro n
  induction n with
  | zero =>
    intro ttl l h
    injection h with h
    subst h
    intro hp hm
    cases hm
  | succ n ih =>
    intro ttl l h
    unfold scapyGo at h
    split at h
    · cases h
    · split at h
      · cases hgo : scapyGo cfg env (ttl + 1) n with
        | error e => rw [hgo] at h; cases h
        | ok l2 =>
          rw [hgo] at h
          injection h with h
          subst h
          intro hp hm hip
          rcases List.mem_cons.mp hm with he | he
          · subst he; rfl
          · exact ih (ttl + 1) l2 hgo hp he hip
      · rename_i r hr
        split at h
        · injection h with h
          subst h
          intro hp hm hip
          rcases List.mem_cons.mp hm with he | he
          · subst he
            exact absurd hip (renderSrc_ne_sentinel r)
          · cases he
        · cases hgo : scapyGo cfg env (ttl + 1) n with
          | error e => rw [hgo] at h; cases h
          | ok l2 =>
            rw [hgo] at h
            injection h with h
            subst h
            intro hp hm hip
            rcases List.mem_cons.mp hm with he | he
            · subst he
              exact absurd hip (renderSrc_ne_sentinel r)
            · exact ih (ttl + 1) l2 hgo hp he hip

theorem scapyGo_no_error (cfg : MTRTracer) (env : ScapyEnv)
    (hs : ∀ t, env.srpRaises t = false) :
    ∀ (n ttl : Nat), ∃ l, scapyGo cfg env ttl n = .ok l := by
  intro n
  induction n with
  | zero => intro ttl; exact ⟨[], rfl⟩
  | succ n ih =>
    intro ttl
    obtain ⟨l2, hl2⟩ := ih (ttl + 1)
    unfold scapyGo
    rw [hs ttl]
    simp only [Bool.false_eq_true, if_false]
    cases hr : env.reply ttl with
    | none =>
      refine ⟨⟨ttl, "*", -1⟩ :: l2, ?_⟩
      simp [hl2, Except.map]
    | some r =>
      by_cases hip : renderSrc r = cfg.target_host
      · refine ⟨[⟨ttl, renderSrc r, env.elapsed ttl * 1000⟩], ?_⟩
        simp [if_pos hip]
      · refine ⟨⟨ttl, renderSrc r, env.elapsed ttl * 1000⟩ :: l2, ?_⟩
        simp [if_neg hip, hl2, Except.map]

/-! ## Concrete configurations and environments used by the claim
theorems, their witnesses and counterexamples -/

/-- A default global scapy conf value. -/
def confD : ScapyConf := ⟨"default"⟩

/-- A zero MAC address. -/
def mac0 : MacAddr := ⟨0, 0, 0, 0, 0, 0⟩

/-- Tracer aimed at a literal address, default method. -/
def cfgC1 : MTRTracer := ⟨"10.0.0.1", 30, "tracert"⟩

/-- Tracer aimed at a hostname, default method. -/
def cfgTracert : MTRTracer := ⟨"example.com", 30, "tracert"⟩

/-- Tracer with the raw-probe method selected. -/
def cfgC2 : MTRTracer := ⟨"10.0.0.1", 30, "scapy"⟩

/-- Raw-probe tracer whose target answers at TTL 1. -/
def cfgC8 : MTRTracer := ⟨"9.9.9.9", 30, "scapy"⟩

/-- Raw-probe tracer with a single TTL to probe. -/
def cfgScapy1 : MTRTracer := ⟨"9.9.9.9", 1, "scapy"⟩

/-- Subprocess that spawns fine and prints nothing. -/
def envTempty : SubprocessEnv := ⟨true, 1, "", 0⟩

/-- Subprocess output with decreasing hop numbers. -/
def envTC3 : SubprocessEnv := ⟨true, 1, "2 x\n1 y", 0⟩

/-- Subprocess output with an RTT sample but no IPv4 substring. -/
def envTC4 : SubprocessEnv := ⟨true, 1, "5 10 ms", 0⟩

/-- Subprocess output for the three-sample mean example. -/
def envTC5 : SubprocessEnv := ⟨true, 1, "1  3 ms  2 ms  4 ms  192.168.1.1", 0⟩

/-- Subprocess that exits with status 1 but still prints a hop line. -/
def envTC7 : SubprocessEnv := ⟨true, 1, "1  10 ms  10.0.0.1", 1⟩

/-- Subprocess whose intrinsic run time exceeds the 60-unit ceiling. -/
def envTC7slow : SubprocessEnv := ⟨true, 61, "1  10 ms  10.0.0.1", 0⟩

/-- Scapy environment: one interface, the target replies at TTL 1. -/
def envSC1 : ScapyEnv :=
  ⟨["eth0"], fun _ => false,
   fun t => if t = 1 then some ⟨true, ⟨10, 0, 0, 1⟩, mac0⟩ else none,
   fun _ => 1⟩

/-- Scapy environment in which every probe raises. -/
def envSraise : ScapyEnv := ⟨[], fun _ => true, fun _ => none, fun _ => 0⟩

/-- Scapy environment with no interfaces and no replies. -/
def envSnone : ScapyEnv := ⟨[], fun _ => false, fun _ => none, fun _ => 0⟩

/-- Scapy environment with an empty interface list in which the target
nevertheless replies at TTL 1. -/
def envSC8 : ScapyEnv :=
  ⟨[], fun _ => false,
   fun t => if t = 1 then some ⟨true, ⟨9, 9, 9, 9⟩, mac0⟩ else none,
   fun _ => 5⟩

/-- Scapy environment with one interface and no replies. -/
def envSC9 : ScapyEnv := ⟨["eth0"], fun _ => false, fun _ => none, fun _ => 0⟩

/-! ## Claim C1 -/

/-- Claim C1, counterexample: with method "tracert" on a non-Windows
platform, the external tool returning an empty hop sequence does NOT
make `trace` return the raw-probe result: `trace` returns the empty
tracert result even though the raw-probe strategy would have produced a
nonempty one.  The fallback is therefore not platform-independent. -/
theorem C1_no_fallback_off_windows :
    cfgC1.tracert_trace envTempty = [] ∧
    cfgC1.trace envTempty envSC1 "linux" confD = (.ok [], confD) ∧
    (cfgC1.scapy_trace envSC1 confD).fst = .ok [⟨1, "10.0.0.1", 1000⟩] ∧
    ([] : List Hop) ≠ [⟨1, "10.0.0.1", 1000⟩] := by
  refine ⟨rfl, rfl, ?_, by simp⟩
  have h : (cfgC1.scapy_trace envSC1 confD).fst =
      .ok [⟨1, "10.0.0.1", (1 : ℚ) * 1000⟩] := rfl
  have h2 : (1 : ℚ) * 1000 = 1000 := by norm_num
  rw [h, h2]

/-- Claim C1, amended: the fallback from an empty external-tool result to
the raw-probe strategy happens only when the configured method is
"tracert" AND the platform string starts with "win"; under those
hypotheses an empty tracert result makes `trace` return exactly the
raw-probe outcome. -/
theorem C1_fallback_requires_windows (cfg : MTRTracer) (envT : SubprocessEnv)
    (envS : ScapyEnv) (platform : String) (conf : ScapyConf)
    (hm : cfg.method = "tracert") (hp : pyStartswith platform "win" = true)
    (he : cfg.tracert_trace envT = []) :
    cfg.trace envT envS platform conf = cfg.scapy_trace envS conf := by
  unfold MTRTracer.trace
  rw [if_pos ⟨hm, hp⟩, if_pos he]

/-- Witness for `C1_fallback_requires_windows` at a concrete input. -/
theorem C1_fallback_witness :
    cfgC1.method = "tracert" ∧ pyStartswith "win32" "win" = true ∧
    cfgC1.tracert_trace envTempty = [] ∧
    cfgC1.trace envTempty envSC1 "win32" confD = cfgC1.scapy_trace envSC1 confD :=
  ⟨rfl, rfl, rfl,
   C1_fallback_requires_windows cfgC1 envTempty envSC1 "win32" confD rfl rfl rfl⟩

/-! ## Claim C2 -/

/-- Claim C2, counterexample: an exception raised by the raw-probe
primitives is NOT caught anywhere: it crosses the `trace` boundary and
the caller receives the exception instead of a hop list. -/
theorem C2_exception_escapes :
    (cfgC2.trace envTempty envSraise "linux" confD).fst =
      .error "scapy exception" := rfl

/-- Claim C2, amended: exceptions from the external-tool subprocess are
caught inside that strategy, so the only exceptions that can cross the
`trace` boundary come from the raw-probe primitives: whenever none of
them raises, `trace` returns a hop list for every configuration and
environment. -/
theorem C2_exception_only_from_raw_probe (cfg : MTRTracer) (envT : SubprocessEnv)
    (envS : ScapyEnv) (platform : String) (conf : ScapyConf)
    (hs : ∀ t, envS.srpRaises t = false) :
    ∃ hops confA, cfg.trace envT envS platform conf = (.ok hops, confA) := by
  obtain ⟨l, hl⟩ := scapyGo_no_error cfg envS hs cfg.max_hops 1
  unfold MTRTracer.trace
  split
  · split
    · exact ⟨l, (cfg.scapy_trace envS conf).snd, Prod.ext hl rfl⟩
    · exact ⟨_, conf, rfl⟩
  · split
    · exact ⟨l, (cfg.scapy_trace envS conf).snd, Prod.ext hl rfl⟩
    · exact ⟨_, conf, rfl⟩

/-- Witness for `C2_exception_only_from_raw_probe` at a concrete input. -/
theorem C2_witness :
    (∀ t, envSnone.srpRaises t = false) ∧
    ∃ hops confA, cfgC2.trace envTempty envSnone "linux" confD = (.ok hops, confA) :=
  ⟨fun _ => rfl,
   C2_exception_only_from_raw_probe cfgC2 envTempty envSnone "linux" confD
     fun _ => rfl⟩

/-! ## Claim C3 -/

/-- Claim C3, counterexample: the external-tool parser copies hop numbers
verbatim from the subprocess output, so `trace` can return hop indices
that are neither increasing nor starting at 1. -/
theorem C3_external_indices_unordered :
    (cfgTracert.trace envTC3 envSnone "linux" confD).fst =
      .ok [⟨2, "*", -1⟩, ⟨1, "*", -1⟩] ∧
    ¬ hopIndicesOk [⟨2, "*", -1⟩, ⟨1, "*", -1⟩] :=
  ⟨rfl, by decide⟩

/-- Claim C3, amended: the raw-probe strategy does return hop indices that
are strictly increasing and start at 1, for every configuration and
reply behaviour. -/
theorem C3_raw_probe_indices (cfg : MTRTracer) (envS : ScapyEnv) (conf : ScapyConf)
    (l : List Hop) (h : (cfg.scapy_trace envS conf).fst = .ok l) :
    hopIndicesOk l := by
  have hgo : scapyGo cfg envS 1 cfg.max_hops = .ok l := h
  have hmap := scapyGo_indices cfg envS cfg.max_hops 1 l hgo
  constructor
  · rw [hmap]
    exact strictlyIncr_range1 l.length 1
  · rw [hmap]
    cases l with
    | nil => rfl
    | cons x t =>
      simp only [List.length_cons]
      rw [List.range'_succ]
      rfl

/-- Witness for `C3_raw_probe_indices` at a concrete input. -/
theorem C3_witness :
    (cfgC1.scapy_trace envSC1 confD).fst = .ok [⟨1, "10.0.0.1", (1 : ℚ) * 1000⟩] ∧
    hopIndicesOk [⟨1, "10.0.0.1", (1 : ℚ) * 1000⟩] :=
  ⟨rfl, C3_raw_probe_indices cfgC1 envSC1 confD _ rfl⟩

/-! ## Claim C4 -/

/-- Claim C4, counterexample: on the external-tool path a line with an RTT
sample but no IPv4 substring produces a hop whose address is the sentinel
"*" while its latency is 10, not the sentinel -1, so the sentinel-pairing
invariant fails for the external-tool parser. -/
theorem C4_external_sentinel_unpaired :
    cfgTracert.tracert_trace envTC4 = [⟨5, "*", 10⟩] ∧ ((10 : ℚ) ≠ -1) := by
  constructor
  · have h : cfgTracert.tracert_trace envTC4 =
        [⟨5, "*", ((10 : Nat) : ℚ) / ((1 : Nat) : ℚ)⟩] := rfl
    have h2 : ((10 : Nat) : ℚ) / ((1 : Nat) : ℚ) = 10 := by norm_num
    rw [h, h2]
  · norm_num

/-- Claim C4, amended: the sentinel-pairing invariant does hold on the
raw-probe path: every hop produced by the raw-probe strategy with address
"*" carries latency -1, for every reply behaviour. -/
theorem C4_raw_probe_sentinel_pairing (cfg : MTRTracer) (envS : ScapyEnv)
    (conf : ScapyConf) (l : List Hop) (h : (cfg.scapy_trace envS conf).fst = .ok l)
    (hp : Hop) (hmem : hp ∈ l) (hip : hp.ip = "*") : hp.latency = -1 := by
  have hgo : scapyGo cfg envS 1 cfg.max_hops = .ok l := h
  exact scapyGo_pairing cfg envS cfg.max_hops 1 l hgo hp hmem hip

/-- Witness for `C4_raw_probe_sentinel_pairing` at a concrete input. -/
theorem C4_witness :
    (cfgScapy1.scapy_trace envSnone confD).fst = .ok [⟨1, "*", -1⟩] ∧
    Hop.latency ⟨1, "*", -1⟩ = -1 :=
  ⟨rfl,
   C4_raw_probe_sentinel_pairing cfgScapy1 envSnone confD [⟨1, "*", -1⟩] rfl
     ⟨1, "*", -1⟩ (List.mem_singleton.mpr rfl) rfl⟩

/-! ## Claim C5 -/

/-- Claim C5, confirmed: for any line the parser sets the latency to the
arithmetic mean of the samples found by the RTT pattern and to -1 when
there is none; and on the output line
"1  3 ms  2 ms  4 ms  192.168.1.1" the external-tool strategy yields
exactly the record (1, "192.168.1.1", 3). -/
theorem C5_latency_is_mean :
    (∀ line : String,
      lineLatency line =
        if lineRtts line = [] then (-1 : ℚ)
        else ((lineRtts line).sum : ℚ) / (lineRtts line).length) ∧
    cfgTracert.tracert_trace envTC5 = [⟨1, "192.168.1.1", 3⟩] := by
  constructor
  · intro line
    by_cases h : lineRtts line = []
    · simp [lineLatency, h]
    · simp [lineLatency, h, List.isEmpty_iff]
  · have h : cfgTracert.tracert_trace envTC5 =
        [⟨1, "192.168.1.1", ((9 : Nat) : ℚ) / ((3 : Nat) : ℚ)⟩] := rfl
    have h2 : ((9 : Nat) : ℚ) / ((3 : Nat) : ℚ) = 3 := by norm_num
    rw [h, h2]

/-! ## Claim C6 -/

/-- Claim C6, confirmed: as soon as a line of external-tool output is a
data line whose parsed address equals the configured target, its record
is appended and parsing stops: no record is produced for any later line,
whatever those lines contain. -/
theorem C6_stops_at_target (target l : String) (ls₁ ls₂ : List String)
    (hall : (ls₁.all fun x => !(hitsTarget target x)) = true)
    (hl : hitsTarget target l = true) :
    ∃ h, dataHop l = some h ∧ h.ip = target ∧
      tracertParse target (ls₁ ++ l :: ls₂) = tracertParse target ls₁ ++ [h] := by
  induction ls₁ with
  | nil =>
    unfold hitsTarget at hl
    cases hd : dataHop l with
    | none => rw [hd] at hl; simp at hl
    | some h =>
      rw [hd] at hl
      have hip : h.ip = target := by simpa using hl
      refine ⟨h, rfl, hip, ?_⟩
      simp [tracertParse, hd, hip]
  | cons x xs ih =>
    rw [List.all_cons, Bool.and_eq_true] at hall
    obtain ⟨hx, hxs⟩ := hall
    obtain ⟨h, hd, hip, heq⟩ := ih hxs
    cases hdx : dataHop x with
    | none =>
      refine ⟨h, hd, hip, ?_⟩
      simp only [List.cons_append]
      simp [tracertParse, hdx, heq]
    | some hx2 =>
      have hne : ¬ (hx2.ip = target) := by
        unfold hitsTarget at hx
        rw [hdx] at hx
        simpa using hx
      refine ⟨h, hd, hip, ?_⟩
      simp only [List.cons_append]
      simp [tracertParse, hdx, hne, heq]

/-- Witness for `C6_stops_at_target` at a concrete input: the target line
is included, the valid-looking hop line after it is ignored. -/
theorem C6_witness :
    (["x", "1  9.9.9.9"].all fun x => !(hitsTarget "1.2.3.4" x)) = true ∧
    hitsTarget "1.2.3.4" "2  1.2.3.4" = true ∧
    ∃ h, dataHop "2  1.2.3.4" = some h ∧ h.ip = "1.2.3.4" ∧
      tracertParse "1.2.3.4" (["x", "1  9.9.9.9"] ++ "2  1.2.3.4" :: ["3  8.8.8.8"]) =
        tracertParse "1.2.3.4" ["x", "1  9.9.9.9"] ++ [h] :=
  ⟨by decide, by decide,
   C6_stops_at_target "1.2.3.4" "2  1.2.3.4" ["x", "1  9.9.9.9"] ["3  8.8.8.8"]
     (by decide) (by decide)⟩

/-! ## Claim C7 -/

/-- Claim C7, counterexample: the strategy never inspects the exit
status (`subprocess.run` is called without `check=True`), so a non-zero
exit with parsable standard output yields a nonempty result, not the
empty TraceResult the claim requires. -/
theorem C7_nonzero_exit_still_parsed :
    envTC7.exitcode = 1 ∧
    cfgTracert.tracert_trace envTC7 = [⟨1, "10.0.0.1", 10⟩] ∧
    ([⟨1, "10.0.0.1", 10⟩] : List Hop) ≠ [] := by
  refine ⟨rfl, ?_, by simp⟩
  have h : cfgTracert.tracert_trace envTC7 =
      [⟨1, "10.0.0.1", ((10 : Nat) : ℚ) / ((1 : Nat) : ℚ)⟩] := rfl
  have h2 : ((10 : Nat) : ℚ) / ((1 : Nat) : ℚ) = 10 := by norm_num
  rw [h, h2]

/-- Claim C7, amended: the subprocess wait is bounded by the 60-unit
ceiling, and on a timeout (or a spawn failure) the strategy returns the
empty TraceResult; the exit status, however, is ignored. -/
theorem C7_ceiling_and_timeout (cfg : MTRTracer) (env : SubprocessEnv) :
    subprocessElapsed env ≤ 60 ∧
    (60 < env.runTime → cfg.tracert_trace env = []) ∧
    (env.spawnOk = false → cfg.tracert_trace env = []) := by
  refine ⟨?_, ?_, ?_⟩
  · unfold subprocessElapsed
    split
    · exact min_le_right _ _
    · norm_num
  · intro h
    by_cases hs : env.spawnOk
    · simp [MTRTracer.tracert_trace, hs, h]
    · simp [MTRTracer.tracert_trace, hs]
  · intro h
    simp [MTRTracer.tracert_trace, h]

/-- Witness for `C7_ceiling_and_timeout` at a concrete input whose
intrinsic run time exceeds the ceiling. -/
theorem C7_witness :
    subprocessElapsed envTC7slow ≤ 60 ∧ cfgTracert.tracert_trace envTC7slow = [] :=
  ⟨(C7_ceiling_and_timeout cfgTracert envTC7slow).1,
   (C7_ceiling_and_timeout cfgTracert envTC7slow).2.1 (by norm_num [envTC7slow])⟩

/-! ## Claim C8 -/

/-- Claim C8, counterexample: with an empty interface list the raw-probe
strategy does NOT fail early: it probes anyway, and when replies arrive
it returns a nonempty TraceResult. -/
theorem C8_probes_despite_no_interface :
    envSC8.interfaces = [] ∧
    cfgC8.scapy_trace envSC8 confD = (.ok [⟨1, "9.9.9.9", 5000⟩], confD) ∧
    ([⟨1, "9.9.9.9", 5000⟩] : List Hop) ≠ [] := by
  refine ⟨rfl, ?_, by simp⟩
  have h : cfgC8.scapy_trace envSC8 confD =
      (.ok [⟨1, "9.9.9.9", (5 : ℚ) * 1000⟩], confD) := rfl
  have h2 : (5 : ℚ) * 1000 = 5000 := by norm_num
  rw [h, h2]

/-- Claim C8, amended: when the interface list is empty the strategy
leaves the global conf untouched and simply runs the TTL loop as usual
(no early empty return). -/
theorem C8_empty_interface_keeps_probing (cfg : MTRTracer) (env : ScapyEnv)
    (conf : ScapyConf) (hi : env.interfaces = []) :
    cfg.scapy_trace env conf = (scapyGo cfg env 1 cfg.max_hops, conf) := by
  simp [MTRTracer.scapy_trace, hi]

/-- Witness for `C8_empty_interface_keeps_probing` at a concrete input. -/
theorem C8_witness :
    envSC8.interfaces = [] ∧
    cfgC8.scapy_trace envSC8 confD = (scapyGo cfgC8 envSC8 1 cfgC8.max_hops, confD) :=
  ⟨rfl, C8_empty_interface_keeps_probing cfgC8 envSC8 confD rfl⟩

/-! ## Claim C9 -/

/-- Claim C9, counterexample: a `trace` call through the raw-probe
strategy writes the process-global scapy conf: after the call the global
`iface` field holds the first interface, not its previous value. -/
theorem C9_trace_writes_global_conf :
    (cfgC2.trace envTempty envSC9 "linux" confD).snd = ⟨"eth0"⟩ ∧
    (⟨"eth0"⟩ : ScapyConf) ≠ confD :=
  ⟨rfl, by decide⟩

/-- Claim C9, amended: the only shared mutable location `trace` can write
is the global scapy `conf.iface` field, and then only to the head of the
interface list: after any call the global conf is either unchanged or
holds the first interface. -/
theorem C9_only_global_write_is_iface (cfg : MTRTracer) (envT : SubprocessEnv)
    (envS : ScapyEnv) (platform : String) (conf : ScapyConf) :
    (cfg.trace envT envS platform conf).snd = conf ∨
    ∃ i t, envS.interfaces = i :: t ∧
      (cfg.trace envT envS platform conf).snd = ⟨i⟩ := by
  unfold MTRTracer.trace
  split
  · split
    · cases hi : envS.interfaces with
      | nil => left; simp [MTRTracer.scapy_trace, hi]
      | cons i t => right; exact ⟨i, t, rfl, by simp [MTRTracer.scapy_trace, hi]⟩
    · left; rfl
  · split
    · cases hi : envS.interfaces with
      | nil => left; simp [MTRTracer.scapy_trace, hi]
      | cons i t => right; exact ⟨i, t, rfl, by simp [MTRTracer.scapy_trace, hi]⟩
    · left; rfl

/-! ## Claim C10 -/

/-- Claim C10, counterexample: the early-stop comparison can succeed for
a target that is not a valid IPv4 dotted quad, because the address
pattern does not validate octet ranges: with target "300.300.300.300"
the parser stops at the first line and ignores the later data line. -/
theorem C10_early_stop_at_nonquad_target :
    isIPv4Quad "300.300.300.300" = false ∧
    dataHop "2  8.8.8.8" ≠ none ∧
    tracertParse "300.300.300.300" ["1  300.300.300.300", "2  8.8.8.8"] =
      [⟨1, "300.300.300.300", -1⟩] :=
  ⟨rfl, by decide, rfl⟩

/-- Claim C10, amended: if the target is neither the sentinel "*" nor a
string of the digits-dots shape matched by the address pattern (for
example a hostname containing a letter), the early stop can never fire
and the parser emits a record for every data line of the input. -/
theorem C10_no_early_stop_for_nonshape_target (target : String)
    (h1 : target ≠ "*") (h2 : quadShapeB target.data = false) :
    ∀ lines : List String, tracertParse target lines = lines.filterMap dataHop := by
  intro lines
  induction lines with
  | nil => rfl
  | cons l ls ih =>
    cases hd : dataHop l with
    | none => simp [tracertParse, hd, List.filterMap_cons, ih]
    | some h =>
      have hip : ¬ (h.ip = target) := by
        intro he
        rcases dataHop_ip hd with hstar | hsh
        · rw [he] at hstar
          exact h1 hstar
        · rw [he] at hsh
          rw [hsh] at h2
          cases h2
      simp [tracertParse, hd, hip, List.filterMap_cons, ih]

/-- Witness for `C10_no_early_stop_for_nonshape_target` at a concrete
hostname target. -/
theorem C10_witness :
    ("example.com" ≠ "*") ∧ quadShapeB ("example.com").data = false ∧
    tracertParse "example.com" ["1  10 ms  9.9.9.9"] =
      List.filterMap dataHop ["1  10 ms  9.9.9.9"] :=
  ⟨by decide, rfl,
   C10_no_early_stop_for_nonshape_target "example.com" (by decide) rfl
     ["1  10 ms  9.9.9.9"]⟩
